import Mathlib

/-!
Verification of the particle-life simulation engine (`src/classes/ParticleEngine.ts`).

The engine's numeric state (JS doubles / Float32Array cells) is modelled with
exact rationals.  `Math.sqrt`, which has no exact rational counterpart, is
modelled as an explicit function parameter `sq : ℚ → ℚ`; theorems either hold
for every such function or constrain it to return exact square roots on the
values at which the code evaluates it.  `ratSqrt` is a computable instance that
is exact on perfect rational squares, used for concrete evaluations.
-/

namespace ParticleLife

/-- A transient impulse source (interface `Ripple` in ParticleEngine.ts). -/
structure Ripple where
  x : ℚ
  y : ℚ
  age : ℕ
  strength : ℚ
  deriving DecidableEq

/-- The engine configuration (interface `SimulationConfig` in types.ts).
`colors` is consumed only by the renderer. -/
structure SimulationConfig where
  atomCounts : List ℕ
  colors : List String
  interactionMatrix : List (List ℚ)
  friction : ℚ
  timeScale : ℚ
  cutOffRadius : ℚ
  forceFactor : ℚ
  rippleStrength : ℚ
  deriving DecidableEq

/-- The mutable state of `ParticleEngine` (canvas/rendering fields omitted).
The per-particle Float32Array/Uint8Array stores of common length
`numParticles` are modelled as functions from the index. -/
@[ext] structure EngineState where
  x : ℕ → ℚ
  y : ℕ → ℚ
  vx : ℕ → ℚ
  vy : ℕ → ℚ
  group : ℕ → ℕ
  numParticles : ℕ
  ripples : List Ripple
  config : SimulationConfig
  width : ℚ
  height : ℚ
  groupOffsets : List ℕ

/-- Floor integer square root by bounded search (structural, so that concrete
instances evaluate by rewriting). -/
def floorSqrt (n : ℕ) : ℕ :=
  (List.range (n + 1)).foldl (fun acc r => if r * r ≤ n then r else acc) 0

/-- `Math.sqrt` substitute for concrete evaluations: exact on perfect rational
squares (elsewhere it returns the quotient of the floor integer square
roots, a junk value never relied upon). -/
def ratSqrt (q : ℚ) : ℚ :=
  (floorSqrt q.num.toNat : ℚ) / (floorSqrt q.den : ℚ)

/-- `ParticleEngine.interactionForce(dist, g)`: hard-core repulsion below
`beta = 0.3`, signed tent profile on `(beta, 1)`, zero elsewhere. -/
def interactionForce (dist g : ℚ) : ℚ :=
  let beta : ℚ := 3/10
  if dist < beta then dist / beta - 1
  else if beta < dist ∧ dist < 1 then g * (1 - |2 * dist - 1 - beta| / (1 - beta))
  else 0

/-- The toroidal shortest-displacement correction used by both the pairwise
pass and the ripple pass: `if (d > extent*0.5) d -= extent; if (d < -extent*0.5) d += extent`. -/
def wrapDelta (d extent : ℚ) : ℚ :=
  let d1 := if extent * (1/2) < d then d - extent else d
  if d1 < -(extent * (1/2)) then d1 + extent else d1

/-- The per-axis position wrap of the integration step:
`if (p < 0) p += extent; if (p >= extent) p -= extent` (sequential). -/
def wrapCoord (p extent : ℚ) : ℚ :=
  let p1 := if p < 0 then p + extent else p
  if extent ≤ p1 then p1 - extent else p1

/-- Matrix access `interactionMatrix[a][b]` (out-of-range access modelled by
the defaults; the code only reaches in-range indices for well-shaped configs). -/
def matrixGet (m : List (List ℚ)) (a b : ℕ) : ℚ :=
  (m.getD a []).getD b 0

/-- The `distSq` local of the inner pairwise loop: squared length of the
toroidally-wrapped displacement from particle `i` to particle `j`. -/
def torDistSq (st : EngineState) (i j : ℕ) : ℚ :=
  let dx := wrapDelta (st.x j - st.x i) st.width
  let dy := wrapDelta (st.y j - st.y i) st.height
  dx * dx + dy * dy

/-- Contribution of particle `j` to particle `i`'s force accumulator in one
iteration of the inner pairwise loop of `update()` (zero when the iteration
skips: `i === j`, coincident pair, or at/beyond the cutoff radius). -/
def pairContrib (sq : ℚ → ℚ) (st : EngineState) (i j : ℕ) : ℚ × ℚ :=
  if i = j then (0, 0)
  else
    let distSq := torDistSq st i j
    if 0 < distSq ∧ distSq < st.config.cutOffRadius * st.config.cutOffRadius then
      let dx := wrapDelta (st.x j - st.x i) st.width
      let dy := wrapDelta (st.y j - st.y i) st.height
      let dist := sq distSq
      let force := interactionForce (dist / st.config.cutOffRadius)
          (matrixGet st.config.interactionMatrix (st.group i) (st.group j)) *
        st.config.forceFactor
      ((dx / dist) * force, (dy / dist) * force)
    else (0, 0)

/-- The inner `j` loop of the pairwise pass: fold the per-`j` contributions
into the `(fx, fy)` accumulator, starting from `(0, 0)`. -/
def accumForce (sq : ℚ → ℚ) (st : EngineState) (i : ℕ) : ℚ × ℚ :=
  (List.range st.numParticles).foldl
    (fun fp j => (fp.1 + (pairContrib sq st i j).1, fp.2 + (pairContrib sq st i j).2))
    (0, 0)

/-- The loop body of the pairwise pass for particle `i`: accumulate forces over
all `j` and write `v[i] = v[i] * max(0, 1 - friction) + f * timeScale`. -/
def interactionStep (sq : ℚ → ℚ) (st : EngineState) (i : ℕ) : EngineState :=
  let fp := accumForce sq st i
  let retention := max 0 (1 - st.config.friction)
  { st with
    vx := Function.update st.vx i (st.vx i * retention + fp.1 * st.config.timeScale)
    vy := Function.update st.vy i (st.vy i * retention + fp.2 * st.config.timeScale) }

/-- The outer `i` loop of the O(N²) pairwise pass of `update()`. -/
def interactionPass (sq : ℚ → ℚ) (st : EngineState) : EngineState :=
  (List.range st.numParticles).foldl (interactionStep sq) st

/-- One ripple's per-tick evolution inside `update()`: increment `age`, decay
`strength` by 0.95, and drop the ripple once `strength < 0.05` or `age > 300`. -/
def stepRipple (rp : Ripple) : Option Ripple :=
  let age := rp.age + 1
  let strength := rp.strength * (19/20)
  if strength < 1/20 ∨ 300 < age then none
  else some { rp with age := age, strength := strength }

/-- The impulse a live (already aged and decayed) ripple adds to particle `i`'s
velocity: toroidally-shortest displacement from the origin, wavefront band test
`|dist - age*6| < 30`, linear falloff, outward push scaled by `strength * 5`. -/
def rippleImpulse (sq : ℚ → ℚ) (st : EngineState) (rp : Ripple) (i : ℕ) : ℚ × ℚ :=
  let dx := wrapDelta (st.x i - rp.x) st.width
  let dy := wrapDelta (st.y i - rp.y) st.height
  let distSq := dx * dx + dy * dy
  let dist := sq distSq
  let currentRadius := (rp.age : ℚ) * 6
  let distFromWave := |dist - currentRadius|
  if distFromWave < 30 then
    let intensity := 1 - distFromWave / 30
    if 1/1000 < dist then
      ((dx / dist) * intensity * (rp.strength * 5), (dy / dist) * intensity * (rp.strength * 5))
    else (0, 0)
  else (0, 0)

/-- The inner particle loop of the ripple pass: add one ripple's impulse to
every particle's velocity (each iteration touches only its own cell `i`). -/
def applyRipple (sq : ℚ → ℚ) (st : EngineState) (rp : Ripple) (v : (ℕ → ℚ) × (ℕ → ℚ)) :
    (ℕ → ℚ) × (ℕ → ℚ) :=
  (fun i => if i < st.numParticles then v.1 i + (rippleImpulse sq st rp i).1 else v.1 i,
   fun i => if i < st.numParticles then v.2 i + (rippleImpulse sq st rp i).2 else v.2 i)

/-- The ripple loop of `update()` as the code runs it: the array is traversed
from the newest ripple (highest index) down to the oldest, each ripple is aged,
decayed, possibly spliced out, and otherwise applied to all velocities.
Recursion on the list head therefore first processes the tail. -/
def ripplesBackward (sq : ℚ → ℚ) (st : EngineState) :
    List Ripple → (ℕ → ℚ) × (ℕ → ℚ) → List Ripple × ((ℕ → ℚ) × (ℕ → ℚ))
  | [], v => ([], v)
  | rp :: rest, v =>
    let out := ripplesBackward sq st rest v
    match stepRipple rp with
    | none => out
    | some rp' => (rp' :: out.1, applyRipple sq st rp' out.2)

/-- Modelled from the spec: the ripple pass processed one ripple at a time in
insertion order (§4.3 `advanceAndApply`), for comparison with the code's
newest-to-oldest traversal. -/
def ripplesForward (sq : ℚ → ℚ) (st : EngineState) :
    List Ripple → (ℕ → ℚ) × (ℕ → ℚ) → List Ripple × ((ℕ → ℚ) × (ℕ → ℚ))
  | [], v => ([], v)
  | rp :: rest, v =>
    match stepRipple rp with
    | none => ripplesForward sq st rest v
    | some rp' =>
      let out := ripplesForward sq st rest (applyRipple sq st rp' v)
      (rp' :: out.1, out.2)

/-- The ripple stage of `update()`. -/
def ripplePass (sq : ℚ → ℚ) (st : EngineState) : EngineState :=
  let out := ripplesBackward sq st st.ripples (st.vx, st.vy)
  { st with ripples := out.1, vx := out.2.1, vy := out.2.2 }

/-- The integration stage of `update()`: `p += v * timeScale`, then wrap each
axis once into `[0, extent)` (each iteration touches only its own cell `i`). -/
def positionPass (st : EngineState) : EngineState :=
  { st with
    x := fun i => if i < st.numParticles then
        wrapCoord (st.x i + st.vx i * st.config.timeScale) st.width else st.x i
    y := fun i => if i < st.numParticles then
        wrapCoord (st.y i + st.vy i * st.config.timeScale) st.height else st.y i }

/-- `ParticleEngine.update()`: ripple pass, then pairwise force pass, then
position integration with toroidal wrap. -/
def update (sq : ℚ → ℚ) (st : EngineState) : EngineState :=
  positionPass (interactionPass sq (ripplePass sq st))

/-- The group-assignment double loop of `initParticles`: for each bucket `g`
(starting at `g0`), emit `counts[g]` copies of `g` truncated to a byte
(`group` is a `Uint8Array`, so a stored id is reduced mod 256). -/
def buildGroups : ℕ → List ℕ → List ℕ
  | _, [] => []
  | g0, c :: rest => List.replicate c (g0 % 256) ++ buildGroups (g0 + 1) rest

/-- `ParticleEngine.initParticles()`: rebuild all per-particle stores from
`config.atomCounts`; positions are drawn from the random stream `rand`
(`Math.random()` outputs, two per particle, in call order), velocities are
zeroed, groups are assigned bucket by bucket. -/
def initParticles (rand : ℕ → ℚ) (st : EngineState) : EngineState :=
  let counts := st.config.atomCounts
  let total := counts.sum
  { st with
    numParticles := total
    groupOffsets := List.scanl (· + ·) 0 counts
    x := fun i => if i < total then rand (2 * i) * st.width else 0
    y := fun i => if i < total then rand (2 * i + 1) * st.height else 0
    vx := fun _ => 0
    vy := fun _ => 0
    group := fun i => (buildGroups 0 counts).getD i 0 }

/-- `ParticleEngine.setConfig(newConfig)`: detect a change of `atomCounts`
(length or any element), swap the stored config, and rebuild the particle
stores only when the counts changed. -/
def setConfig (rand : ℕ → ℚ) (st : EngineState) (newConfig : SimulationConfig) : EngineState :=
  let countsChanged : Bool :=
    newConfig.atomCounts.length != st.config.atomCounts.length ||
      (newConfig.atomCounts.zip st.config.atomCounts).any (fun p => p.1 != p.2)
  let st1 := { st with config := newConfig }
  if countsChanged then initParticles rand st1 else st1

section Passes

variable (sq : ℚ → ℚ)

@[simp] lemma interactionStep_x (st : EngineState) (a : ℕ) :
    (interactionStep sq st a).x = st.x := rfl

@[simp] lemma interactionStep_y (st : EngineState) (a : ℕ) :
    (interactionStep sq st a).y = st.y := rfl

@[simp] lemma interactionStep_group (st : EngineState) (a : ℕ) :
    (interactionStep sq st a).group = st.group := rfl

@[simp] lemma interactionStep_numParticles (st : EngineState) (a : ℕ) :
    (interactionStep sq st a).numParticles = st.numParticles := rfl

@[simp] lemma interactionStep_config (st : EngineState) (a : ℕ) :
    (interactionStep sq st a).config = st.config := rfl

@[simp] lemma interactionStep_ripples (st : EngineState) (a : ℕ) :
    (interactionStep sq st a).ripples = st.ripples := rfl

@[simp] lemma interactionStep_width (st : EngineState) (a : ℕ) :
    (interactionStep sq st a).width = st.width := rfl

@[simp] lemma interactionStep_height (st : EngineState) (a : ℕ) :
    (interactionStep sq st a).height = st.height := rfl

@[simp] lemma interactionStep_groupOffsets (st : EngineState) (a : ℕ) :
    (interactionStep sq st a).groupOffsets = st.groupOffsets := rfl

lemma interactionStep_vx (st : EngineState) (a : ℕ) :
    (interactionStep sq st a).vx = Function.update st.vx a
      (st.vx a * max 0 (1 - st.config.friction) +
        (accumForce sq st a).1 * st.config.timeScale) := rfl

lemma interactionStep_vy (st : EngineState) (a : ℕ) :
    (interactionStep sq st a).vy = Function.update st.vy a
      (st.vy a * max 0 (1 - st.config.friction) +
        (accumForce sq st a).2 * st.config.timeScale) := rfl

@[simp] lemma pairContrib_step (st : EngineState) (a i j : ℕ) :
    pairContrib sq (interactionStep sq st a) i j = pairContrib sq st i j := rfl

@[simp] lemma accumForce_step (st : EngineState) (a i : ℕ) :
    accumForce sq (interactionStep sq st a) i = accumForce sq st i := rfl

lemma ipass_foldl_x (l : List ℕ) (st : EngineState) :
    (l.foldl (interactionStep sq) st).x = st.x := by
  induction l generalizing st with
  | nil => rfl
  | cons a rest ih => rw [List.foldl_cons, ih]; rfl

lemma ipass_foldl_y (l : List ℕ) (st : EngineState) :
    (l.foldl (interactionStep sq) st).y = st.y := by
  induction l generalizing st with
  | nil => rfl
  | cons a rest ih => rw [List.foldl_cons, ih]; rfl

lemma ipass_foldl_group (l : List ℕ) (st : EngineState) :
    (l.foldl (interactionStep sq) st).group = st.group := by
  induction l generalizing st with
  | nil => rfl
  | cons a rest ih => rw [List.foldl_cons, ih]; rfl

lemma ipass_foldl_numParticles (l : List ℕ) (st : EngineState) :
    (l.foldl (interactionStep sq) st).numParticles = st.numParticles := by
  induction l generalizing st with
  | nil => rfl
  | cons a rest ih => rw [List.foldl_cons, ih]; rfl

lemma ipass_foldl_config (l : List ℕ) (st : EngineState) :
    (l.foldl (interactionStep sq) st).config = st.config := by
  induction l generalizing st with
  | nil => rfl
  | cons a rest ih => rw [List.foldl_cons, ih]; rfl

lemma ipass_foldl_ripples (l : List ℕ) (st : EngineState) :
    (l.foldl (interactionStep sq) st).ripples = st.ripples := by
  induction l generalizing st with
  | nil => rfl
  | cons a rest ih => rw [List.foldl_cons, ih]; rfl

lemma ipass_foldl_width (l : List ℕ) (st : EngineState) :
    (l.foldl (interactionStep sq) st).width = st.width := by
  induction l generalizing st with
  | nil => rfl
  | cons a rest ih => rw [List.foldl_cons, ih]; rfl

lemma ipass_foldl_height (l : List ℕ) (st : EngineState) :
    (l.foldl (interactionStep sq) st).height = st.height := by
  induction l generalizing st with
  | nil => rfl
  | cons a rest ih => rw [List.foldl_cons, ih]; rfl

lemma ipass_foldl_groupOffsets (l : List ℕ) (st : EngineState) :
    (l.foldl (interactionStep sq) st).groupOffsets = st.groupOffsets := by
  induction l generalizing st with
  | nil => rfl
  | cons a rest ih => rw [List.foldl_cons, ih]; rfl

/-- The outer pairwise loop writes each velocity cell exactly once: after
folding over a duplicate-free index list, cell `i` holds the frictioned old
velocity plus the force accumulated from the original (never written)
positions, exactly when `i` was visited. -/
lemma ipass_foldl_vx (l : List ℕ) (hl : l.Nodup) (st : EngineState) (i : ℕ) :
    (l.foldl (interactionStep sq) st).vx i =
      if i ∈ l then st.vx i * max 0 (1 - st.config.friction) +
        (accumForce sq st i).1 * st.config.timeScale
      else st.vx i := by
  induction l generalizing st with
  | nil => simp
  | cons a rest ih =>
    obtain ⟨ha, hnd⟩ := List.nodup_cons.mp hl
    rw [List.foldl_cons, ih hnd, interactionStep_config, accumForce_step,
      interactionStep_vx]
    by_cases hia : i = a
    · subst hia
      simp [Function.update_apply, ha]
    · simp [Function.update_apply, hia, List.mem_cons]

lemma ipass_foldl_vy (l : List ℕ) (hl : l.Nodup) (st : EngineState) (i : ℕ) :
    (l.foldl (interactionStep sq) st).vy i =
      if i ∈ l then st.vy i * max 0 (1 - st.config.friction) +
        (accumForce sq st i).2 * st.config.timeScale
      else st.vy i := by
  induction l generalizing st with
  | nil => simp
  | cons a rest ih =>
    obtain ⟨ha, hnd⟩ := List.nodup_cons.mp hl
    rw [List.foldl_cons, ih hnd, interactionStep_config, accumForce_step,
      interactionStep_vy]
    by_cases hia : i = a
    · subst hia
      simp [Function.update_apply, ha]
    · simp [Function.update_apply, hia, List.mem_cons]

lemma interactionPass_vx (st : EngineState) (i : ℕ) (hi : i < st.numParticles) :
    (interactionPass sq st).vx i =
      st.vx i * max 0 (1 - st.config.friction) +
        (accumForce sq st i).1 * st.config.timeScale := by
  rw [interactionPass, ipass_foldl_vx sq _ (List.nodup_range _),
    if_pos (List.mem_range.mpr hi)]

lemma interactionPass_vy (st : EngineState) (i : ℕ) (hi : i < st.numParticles) :
    (interactionPass sq st).vy i =
      st.vy i * max 0 (1 - st.config.friction) +
        (accumForce sq st i).2 * st.config.timeScale := by
  rw [interactionPass, ipass_foldl_vy sq _ (List.nodup_range _),
    if_pos (List.mem_range.mpr hi)]

lemma foldl_pair_sum (f g : ℕ → ℚ) (l : List ℕ) (a b : ℚ) :
    l.foldl (fun fp j => (fp.1 + f j, fp.2 + g j)) (a, b) =
      (a + (l.map f).sum, b + (l.map g).sum) := by
  induction l generalizing a b with
  | nil => simp
  | cons c rest ih => simp [ih, add_assoc]

/-- The inner-loop fold is the sum of the individual pair contributions. -/
lemma accumForce_eq_sum (st : EngineState) (i : ℕ) :
    accumForce sq st i =
      (((List.range st.numParticles).map fun j => (pairContrib sq st i j).1).sum,
       ((List.range st.numParticles).map fun j => (pairContrib sq st i j).2).sum) := by
  rw [accumForce, foldl_pair_sum]
  simp

end Passes

/-- A wrapped coordinate stays in `[0, extent)` provided it starts there and
the displacement is smaller than one extent in magnitude. -/
lemma wrapCoord_bounds {p d w : ℚ} (hp0 : 0 ≤ p) (hpw : p < w) (hd : |d| < w) :
    0 ≤ wrapCoord (p + d) w ∧ wrapCoord (p + d) w < w := by
  rw [abs_lt] at hd
  rw [wrapCoord]
  split_ifs with h1 h2 h2 <;> constructor <;> linarith

lemma getD_all_zero {row : List ℚ} (h : ∀ e ∈ row, e = 0) (b : ℕ) :
    row.getD b 0 = 0 := by
  induction row generalizing b with
  | nil => simp
  | cons e rest ih =>
    cases b with
    | zero => simpa using h e (by simp)
    | succ b' =>
      simp only [List.getD_cons_succ]
      exact ih (fun e' he' => h e' (by simp [he'])) b'

/-- Any access into an all-zero interaction matrix yields 0 (in or out of
range, since the out-of-range default is also 0). -/
lemma matrixGet_zero {m : List (List ℚ)} (hm : ∀ row ∈ m, ∀ e ∈ row, e = 0)
    (a b : ℕ) : matrixGet m a b = 0 := by
  induction m generalizing a with
  | nil => cases a <;> simp [matrixGet]
  | cons row rest ih =>
    cases a with
    | zero =>
      simpa [matrixGet] using getD_all_zero (hm row (by simp)) b
    | succ a' =>
      simpa [matrixGet] using ih (fun r hr e he => hm r (by simp [hr]) e he) a'

section Ripples

variable (sq : ℚ → ℚ) (st : EngineState)

@[simp] lemma ripplePass_x : (ripplePass sq st).x = st.x := rfl

@[simp] lemma ripplePass_y : (ripplePass sq st).y = st.y := rfl

@[simp] lemma ripplePass_group : (ripplePass sq st).group = st.group := rfl

@[simp] lemma ripplePass_numParticles : (ripplePass sq st).numParticles = st.numParticles := rfl

@[simp] lemma ripplePass_config : (ripplePass sq st).config = st.config := rfl

@[simp] lemma ripplePass_width : (ripplePass sq st).width = st.width := rfl

@[simp] lemma ripplePass_height : (ripplePass sq st).height = st.height := rfl

@[simp] lemma positionPass_vx (st : EngineState) : (positionPass st).vx = st.vx := rfl

@[simp] lemma positionPass_vy (st : EngineState) : (positionPass st).vy = st.vy := rfl

@[simp] lemma positionPass_ripples (st : EngineState) : (positionPass st).ripples = st.ripples := rfl

/-- Sum of the velocity contributions of the surviving (aged and decayed)
ripples to particle `i`, per axis. -/
def rippleTotal (rs : List Ripple) (i : ℕ) : ℚ × ℚ :=
  (((rs.filterMap stepRipple).map fun rp => (rippleImpulse sq st rp i).1).sum,
   ((rs.filterMap stepRipple).map fun rp => (rippleImpulse sq st rp i).2).sum)

/-- Which ripples survive the tick does not depend on the traversal direction:
the backward (code) traversal keeps exactly the stepped ripples, in order. -/
lemma ripplesBackward_fst (rs : List Ripple) (v : (ℕ → ℚ) × (ℕ → ℚ)) :
    (ripplesBackward sq st rs v).1 = rs.filterMap stepRipple := by
  induction rs generalizing v with
  | nil => rfl
  | cons rp rest ih =>
    rw [ripplesBackward]
    cases h : stepRipple rp <;> simp [h, ih]

lemma ripplesForward_fst (rs : List Ripple) (v : (ℕ → ℚ) × (ℕ → ℚ)) :
    (ripplesForward sq st rs v).1 = rs.filterMap stepRipple := by
  induction rs generalizing v with
  | nil => rfl
  | cons rp rest ih =>
    rw [ripplesForward]
    cases h : stepRipple rp <;> simp [h, ih]

lemma ripplesBackward_snd (rs : List Ripple) (v : (ℕ → ℚ) × (ℕ → ℚ)) (i : ℕ) :
    (ripplesBackward sq st rs v).2.1 i =
        (if i < st.numParticles then v.1 i + (rippleTotal sq st rs i).1 else v.1 i) ∧
      (ripplesBackward sq st rs v).2.2 i =
        (if i < st.numParticles then v.2 i + (rippleTotal sq st rs i).2 else v.2 i) := by
  induction rs generalizing v with
  | nil => simp [ripplesBackward, rippleTotal]
  | cons rp rest ih =>
    rw [ripplesBackward]
    cases h : stepRipple rp with
    | none => simpa [rippleTotal, h] using ih v
    | some rp' =>
      obtain ⟨h1, h2⟩ := ih v
      constructor <;>
        simp [applyRipple, h1, h2, rippleTotal, h] <;>
        split_ifs <;> ring

lemma ripplesForward_snd (rs : List Ripple) (v : (ℕ → ℚ) × (ℕ → ℚ)) (i : ℕ) :
    (ripplesForward sq st rs v).2.1 i =
        (if i < st.numParticles then v.1 i + (rippleTotal sq st rs i).1 else v.1 i) ∧
      (ripplesForward sq st rs v).2.2 i =
        (if i < st.numParticles then v.2 i + (rippleTotal sq st rs i).2 else v.2 i) := by
  induction rs generalizing v with
  | nil => simp [ripplesForward, rippleTotal]
  | cons rp rest ih =>
    rw [ripplesForward]
    cases h : stepRipple rp with
    | none => simpa [rippleTotal, h] using ih v
    | some rp' =>
      obtain ⟨h1, h2⟩ := ih (applyRipple sq st rp' v)
      refine ⟨?_, ?_⟩
      · dsimp only
        rw [h1]
        simp only [applyRipple, rippleTotal, h, List.filterMap_cons, List.map_cons,
          List.sum_cons]
        split_ifs <;> ring
      · dsimp only
        rw [h2]
        simp only [applyRipple, rippleTotal, h, List.filterMap_cons, List.map_cons,
          List.sum_cons]
        split_ifs <;> ring

end Ripples

lemma getD_append_lt {α} (l l' : List α) (d : α) (i : ℕ) (h : i < l.length) :
    (l ++ l').getD i d = l.getD i d := by
  induction l generalizing i with
  | nil => simp at h
  | cons a rest ih =>
    cases i with
    | zero => rfl
    | succ i' => simpa using ih i' (by simpa using h)

lemma getD_append_ge {α} (l l' : List α) (d : α) (i : ℕ) (h : l.length ≤ i) :
    (l ++ l').getD i d = l'.getD (i - l.length) d := by
  induction l generalizing i with
  | nil => simp
  | cons a rest ih =>
    cases i with
    | zero => simp at h
    | succ i' => simpa [Nat.succ_sub_succ] using ih i' (by simpa using h)

lemma getD_replicate_lt {α} (n : ℕ) (a d : α) (i : ℕ) (h : i < n) :
    (List.replicate n a).getD i d = a := by
  induction n generalizing i with
  | zero => simp at h
  | succ n' ih =>
    cases i with
    | zero => rfl
    | succ i' => simpa [List.replicate_succ] using ih i' (by omega)

lemma buildGroups_length (cs : List ℕ) (g0 : ℕ) :
    (buildGroups g0 cs).length = cs.sum := by
  induction cs generalizing g0 with
  | nil => rfl
  | cons c rest ih => simp [buildGroups, ih]

/-- Particle `i` of the rebuilt store belongs to bucket `t` (mod 256) exactly
when `i` falls between the cumulative counts below `t` and below `t + 1`. -/
lemma buildGroups_getD (cs : List ℕ) (g0 t i : ℕ) (ht : t < cs.length)
    (h1 : (cs.take t).sum ≤ i) (h2 : i < (cs.take (t + 1)).sum) :
    (buildGroups g0 cs).getD i 0 = (g0 + t) % 256 := by
  induction cs generalizing g0 t i with
  | nil => simp at ht
  | cons c rest ih =>
    cases t with
    | zero =>
      have hic : i < c := by simpa using h2
      rw [buildGroups, getD_append_lt _ _ _ _ (by simpa [List.length_replicate] using hic),
        getD_replicate_lt _ _ _ _ hic]
      simp
    | succ t' =>
      have hc : c ≤ i := by
        have := h1
        simp [List.take_succ_cons] at this
        omega
      rw [buildGroups, getD_append_ge _ _ _ _ (by simpa [List.length_replicate] using hc),
        List.length_replicate]
      have := ih (g0 + 1) t' (i - c) (by simpa using ht)
        (by simp [List.take_succ_cons] at h1; omega)
        (by simp [List.take_succ_cons] at h2; omega)
      rw [this]
      congr 1
      omega

lemma buildGroups_mem {a : ℕ} (cs : List ℕ) (g0 : ℕ) (ha : a ∈ buildGroups g0 cs) :
    ∃ k, k < cs.length ∧ a = (g0 + k) % 256 := by
  induction cs generalizing g0 with
  | nil => simp [buildGroups] at ha
  | cons c rest ih =>
    rw [buildGroups, List.mem_append] at ha
    rcases ha with ha | ha
    · exact ⟨0, by simp, by simpa using List.eq_of_mem_replicate ha⟩
    · obtain ⟨k, hk, hak⟩ := ih (g0 + 1) ha
      exact ⟨k + 1, by simpa using hk, by rw [hak]; congr 1; omega⟩

/-- Removal test of the per-tick ripple step. -/
lemma stepRipple_eq_none {r : Ripple} :
    stepRipple r = none ↔ (r.strength * (19/20) < 1/20 ∨ 300 < r.age + 1) := by
  rw [stepRipple]
  split_ifs with h
  · exact iff_of_true rfl h
  · exact iff_of_false (by simp) h

lemma stepRipple_eq_some {r r' : Ripple} :
    stepRipple r = some r' ↔
      (¬(r.strength * (19/20) < 1/20 ∨ 300 < r.age + 1) ∧
        r' = { r with age := r.age + 1, strength := r.strength * (19/20) }) := by
  rw [stepRipple]
  split_ifs with h
  · exact iff_of_false (by simp) (fun hc => hc.1 h)
  · constructor
    · intro he
      exact ⟨h, (Option.some_inj.mp he).symm⟩
    · rintro ⟨-, rfl⟩
      rfl

/-- The fate of a single ripple after `k` ticks: iterated application of the
per-tick step (`none` once the ripple has been spliced out of the array). -/
def surviveN (rp : Ripple) : ℕ → Option Ripple
  | 0 => some rp
  | k + 1 => (surviveN rp k).bind stepRipple

/-- The counts-changed test of `setConfig` is exactly inequality of the two
count lists. -/
lemma countsFlag_eq_false_iff (a b : List ℕ) :
    (a.length != b.length || (a.zip b).any (fun p => p.1 != p.2)) = false ↔ a = b := by
  induction a generalizing b with
  | nil => cases b <;> simp
  | cons x xs ih =>
    cases b with
    | nil => simp
    | cons y ys =>
      have := ih ys
      simp only [List.zip_cons_cons, List.any_cons, List.length_cons,
        Bool.or_eq_false_iff, bne_eq_false_iff_eq] at this ⊢
      constructor
      · rintro ⟨hlen, hxy, hrest⟩
        exact by rw [hxy, this.mp ⟨by omega, hrest⟩]
      · rintro h
        injection h with h1 h2
        have := this.mpr h2
        exact ⟨by simp [h2], h1, this.2⟩

lemma ratSqrt_one : ratSqrt 1 = 1 := by
  rw [ratSqrt, show (1:ℚ).num.toNat = 1 from rfl, show (1:ℚ).den = 1 from rfl,
    show floorSqrt 1 = 1 from by decide]
  norm_num

lemma ratSqrt_nine : ratSqrt 9 = 3 := by
  rw [ratSqrt, show (9:ℚ).num.toNat = 9 from rfl, show (9:ℚ).den = 1 from rfl,
    show floorSqrt 9 = 3 from by decide, show floorSqrt 1 = 1 from by decide]
  norm_num

lemma wrapCoord_id {p w : ℚ} (h0 : 0 ≤ p) (hw : p < w) : wrapCoord p w = p := by
  simp only [wrapCoord]
  rw [if_neg (not_lt.mpr h0), if_neg (not_le.mpr hw)]

/-- At or above the `beta` breakpoint a zero coefficient yields zero force. -/
lemma interactionForce_zero_coeff {nd : ℚ} (h : 3/10 ≤ nd) :
    interactionForce nd 0 = 0 := by
  simp only [interactionForce]
  rw [if_neg (not_lt.mpr h)]
  split_ifs <;> simp

section PassWrappers

variable (sq : ℚ → ℚ) (st : EngineState)

lemma interactionPass_x : (interactionPass sq st).x = st.x := by
  rw [interactionPass]; exact ipass_foldl_x sq _ st

lemma interactionPass_y : (interactionPass sq st).y = st.y := by
  rw [interactionPass]; exact ipass_foldl_y sq _ st

lemma interactionPass_group : (interactionPass sq st).group = st.group := by
  rw [interactionPass]; exact ipass_foldl_group sq _ st

lemma interactionPass_numParticles : (interactionPass sq st).numParticles = st.numParticles := by
  rw [interactionPass]; exact ipass_foldl_numParticles sq _ st

lemma interactionPass_config : (interactionPass sq st).config = st.config := by
  rw [interactionPass]; exact ipass_foldl_config sq _ st

lemma interactionPass_ripples : (interactionPass sq st).ripples = st.ripples := by
  rw [interactionPass]; exact ipass_foldl_ripples sq _ st

lemma interactionPass_width : (interactionPass sq st).width = st.width := by
  rw [interactionPass]; exact ipass_foldl_width sq _ st

lemma interactionPass_height : (interactionPass sq st).height = st.height := by
  rw [interactionPass]; exact ipass_foldl_height sq _ st

@[simp] lemma pairContrib_ripplePass (i j : ℕ) :
    pairContrib sq (ripplePass sq st) i j = pairContrib sq st i j := rfl

@[simp] lemma accumForce_ripplePass (i : ℕ) :
    accumForce sq (ripplePass sq st) i = accumForce sq st i := rfl

lemma ripplePass_vx_def :
    (ripplePass sq st).vx = (ripplesBackward sq st st.ripples (st.vx, st.vy)).2.1 := rfl

lemma ripplePass_vy_def :
    (ripplePass sq st).vy = (ripplesBackward sq st st.ripples (st.vx, st.vy)).2.2 := rfl

lemma ripplePass_ripples_def :
    (ripplePass sq st).ripples = (ripplesBackward sq st st.ripples (st.vx, st.vy)).1 := rfl

lemma update_vx_def : (update sq st).vx = (interactionPass sq (ripplePass sq st)).vx := rfl

lemma update_vy_def : (update sq st).vy = (interactionPass sq (ripplePass sq st)).vy := rfl

lemma positionPass_x_def (st : EngineState) : (positionPass st).x = fun i =>
    if i < st.numParticles then
      wrapCoord (st.x i + st.vx i * st.config.timeScale) st.width
    else st.x i := rfl

lemma positionPass_y_def (st : EngineState) : (positionPass st).y = fun i =>
    if i < st.numParticles then
      wrapCoord (st.y i + st.vy i * st.config.timeScale) st.height
    else st.y i := rfl

end PassWrappers

/-- Modelled from the spec (§4.4 steps 2–3): the per-particle force
accumulator, the sum over the complete pairwise pass of `i`'s x-axis
contributions, all computed from the pre-tick positions. -/
def forceAccumX (sq : ℚ → ℚ) (st : EngineState) (i : ℕ) : ℚ :=
  ((List.range st.numParticles).map fun j => (pairContrib sq st i j).1).sum

/-- Modelled from the spec (§4.4 steps 2–3): the y-axis force accumulator. -/
def forceAccumY (sq : ℚ → ℚ) (st : EngineState) (i : ℕ) : ℚ :=
  ((List.range st.numParticles).map fun j => (pairContrib sq st i j).2).sum

/-- C4: for every coefficient `g`, the force law satisfies the point values
`force(0, g) = -1`, `force(0.3, g) = 0`, `force(1, g) = 0`, and at the tent
midpoint `force(0.65, 1) = 1`. -/
theorem force_law_point_values :
    ∀ g : ℚ, interactionForce 0 g = -1 ∧ interactionForce (3/10) g = 0 ∧
      interactionForce 1 g = 0 ∧ interactionForce (65/100) 1 = 1 := by
  intro g
  refine ⟨?_, ?_, ?_, ?_⟩ <;> norm_num [interactionForce]

/-- C10: the force law is a total function (by construction in this model, as
in the source, whose final branch returns 0), and every input at or beyond the
normalized cutoff distance 1 yields exactly 0, for any coefficient. -/
theorem force_law_cutoff_total (d g : ℚ) (h : 1 ≤ d) : interactionForce d g = 0 := by
  rw [interactionForce]
  rw [if_neg (by intro hc; norm_num at hc; linarith), if_neg (by rintro ⟨-, hc⟩; linarith)]

/-- Witness for C10 at `d = 2`, `g = 5`. -/
theorem force_law_cutoff_total_witness : (1:ℚ) ≤ 2 ∧ interactionForce 2 5 = 0 :=
  ⟨by norm_num, force_law_cutoff_total 2 5 (by norm_num)⟩

/-- C5: the velocity a tick produces for particle `i` is the velocity entering
the pairwise pass (i.e. after the ripple impulses) times `max(0, 1 - friction)`
plus the force accumulated over the complete pairwise pass (from pre-tick
positions) times `timeScale`; with `friction = 1` the old-velocity term
vanishes entirely.  Stating the force term through `forceAccumX`/`forceAccumY`
(an order-independent sum) rather than the code's running fold also records
that the per-particle interleaving equals applying the rule after the full
pass. -/
theorem tick_velocity_formula (sq : ℚ → ℚ) (st : EngineState) (i : ℕ)
    (hi : i < st.numParticles) :
    (update sq st).vx i = (ripplePass sq st).vx i * max 0 (1 - st.config.friction) +
        forceAccumX sq st i * st.config.timeScale ∧
      (update sq st).vy i = (ripplePass sq st).vy i * max 0 (1 - st.config.friction) +
        forceAccumY sq st i * st.config.timeScale ∧
      (st.config.friction = 1 →
        (update sq st).vx i = forceAccumX sq st i * st.config.timeScale ∧
          (update sq st).vy i = forceAccumY sq st i * st.config.timeScale) := by
  have hiN : i < (ripplePass sq st).numParticles := by simpa using hi
  have hx : (update sq st).vx i =
      (ripplePass sq st).vx i * max 0 (1 - st.config.friction) +
        forceAccumX sq st i * st.config.timeScale := by
    rw [update_vx_def, interactionPass_vx sq _ i hiN, ripplePass_config,
      accumForce_ripplePass, accumForce_eq_sum]
    rfl
  have hy : (update sq st).vy i =
      (ripplePass sq st).vy i * max 0 (1 - st.config.friction) +
        forceAccumY sq st i * st.config.timeScale := by
    rw [update_vy_def, interactionPass_vy sq _ i hiN, ripplePass_config,
      accumForce_ripplePass, accumForce_eq_sum]
    rfl
  refine ⟨hx, hy, fun hf => ⟨?_, ?_⟩⟩
  · rw [hx, hf]; norm_num
  · rw [hy, hf]; norm_num

/-- C3: if every particle starts a tick inside `[0, width) × [0, height)` and
no per-axis displacement (the integrated velocity times `timeScale`) reaches a
full world extent, every particle is again inside the bounds after the tick's
single wrap. -/
theorem tick_wrap_invariant (sq : ℚ → ℚ) (st : EngineState)
    (hpos : ∀ i < st.numParticles,
      0 ≤ st.x i ∧ st.x i < st.width ∧ 0 ≤ st.y i ∧ st.y i < st.height)
    (hdisp : ∀ i < st.numParticles,
      |(interactionPass sq (ripplePass sq st)).vx i * st.config.timeScale| < st.width ∧
      |(interactionPass sq (ripplePass sq st)).vy i * st.config.timeScale| < st.height) :
    ∀ i < st.numParticles,
      0 ≤ (update sq st).x i ∧ (update sq st).x i < st.width ∧
        0 ≤ (update sq st).y i ∧ (update sq st).y i < st.height := by
  intro i hi
  set m := interactionPass sq (ripplePass sq st) with hm
  have hmx : m.x = st.x := by rw [hm, interactionPass_x, ripplePass_x]
  have hmy : m.y = st.y := by rw [hm, interactionPass_y, ripplePass_y]
  have hmN : m.numParticles = st.numParticles := by
    rw [hm, interactionPass_numParticles, ripplePass_numParticles]
  have hmc : m.config = st.config := by rw [hm, interactionPass_config, ripplePass_config]
  have hmw : m.width = st.width := by rw [hm, interactionPass_width, ripplePass_width]
  have hmh : m.height = st.height := by rw [hm, interactionPass_height, ripplePass_height]
  have h1 : (update sq st).x i = wrapCoord (st.x i + m.vx i * st.config.timeScale) st.width := by
    show (positionPass m).x i = _
    rw [positionPass_x_def]
    simp only [hmN, hmx, hmc, hmw, if_pos hi]
  have h2 : (update sq st).y i = wrapCoord (st.y i + m.vy i * st.config.timeScale) st.height := by
    show (positionPass m).y i = _
    rw [positionPass_y_def]
    simp only [hmN, hmy, hmc, hmh, if_pos hi]
  obtain ⟨ha, hb, hc, hd⟩ := hpos i hi
  obtain ⟨he, hf⟩ := hdisp i hi
  have wx := wrapCoord_bounds ha hb he
  have wy := wrapCoord_bounds hc hd hf
  rw [h1, h2]
  exact ⟨wx.1, wx.2, wy.1, wy.2⟩

/-- C7: applying a configuration whose `atomCounts` equal the current ones (in
length and every element) swaps only the stored config — positions, velocities
and types are untouched; any difference in the counts rebuilds the store. -/
theorem setConfig_frame (rand : ℕ → ℚ) (st : EngineState) (nc : SimulationConfig) :
    (nc.atomCounts = st.config.atomCounts →
      setConfig rand st nc = { st with config := nc }) ∧
    (nc.atomCounts ≠ st.config.atomCounts →
      setConfig rand st nc = initParticles rand { st with config := nc }) := by
  constructor
  · intro h
    have hf := (countsFlag_eq_false_iff nc.atomCounts st.config.atomCounts).mpr h
    simp only [setConfig, hf]
    rfl
  · intro h
    have hf : (nc.atomCounts.length != st.config.atomCounts.length ||
        (nc.atomCounts.zip st.config.atomCounts).any (fun p => p.1 != p.2)) = true := by
      rcases Bool.eq_false_or_eq_true (nc.atomCounts.length != st.config.atomCounts.length ||
        (nc.atomCounts.zip st.config.atomCounts).any (fun p => p.1 != p.2)) with hb | hb
      · exact hb
      · exact absurd ((countsFlag_eq_false_iff _ _).mp hb) h
    simp only [setConfig, hf]
    rfl

/-- A valid two-type state (2 particles, 2×2 matrix) for the C2 scenario. -/
def configC2prev : SimulationConfig :=
  { atomCounts := [1, 1], colors := [], interactionMatrix := [[0, 0], [0, 0]],
    friction := 0, timeScale := 1, cutOffRadius := 10, forceFactor := 1, rippleStrength := 0 }

def stateC2 : EngineState :=
  { x := fun _ => 0, y := fun _ => 0, vx := fun _ => 0, vy := fun _ => 0,
    group := fun i => if i = 0 then 0 else 1, numParticles := 2, ripples := [],
    config := configC2prev, width := 100, height := 100, groupOffsets := [0, 1, 2] }

/-- A reconfiguration with unchanged counts but a 1×1 `interactionMatrix`,
mismatching the 2-element `atomCounts`. -/
def configC2bad : SimulationConfig :=
  { atomCounts := [1, 1], colors := [], interactionMatrix := [[0]],
    friction := 0, timeScale := 1, cutOffRadius := 10, forceFactor := 1, rippleStrength := 0 }

/-- C2 (evidence of the divergence): `setConfig` performs no shape validation:
the mismatched configuration is stored as-is (and, counts being unchanged, the
old 2-particle store with a particle of type 1 is kept), after which the row
`interactionMatrix[group[1]] = interactionMatrix[1]` that the next `update()`
dereferences does not exist.  The spec instead requires the configuration to
be rejected and the previous valid config kept. -/
theorem setConfig_accepts_mismatched_matrix :
    configC2bad.interactionMatrix.length ≠ configC2bad.atomCounts.length ∧
    (setConfig (fun _ => 0) stateC2 configC2bad).config = configC2bad ∧
    (setConfig (fun _ => 0) stateC2 configC2bad).numParticles = 2 ∧
    (setConfig (fun _ => 0) stateC2 configC2bad).group 1 = 1 ∧
    configC2bad.interactionMatrix[(setConfig (fun _ => 0) stateC2 configC2bad).group 1]? =
      none := by
  exact ⟨by decide, rfl, rfl, rfl, rfl⟩

/-- C9: the ripple stage of `update()` — traversing the ripple array from
newest to oldest with in-place splicing — produces the same surviving ripple
list and the same velocities as processing the ripples one at a time in
insertion order; each particle's velocity gains exactly the sum of the
independent impulses of the surviving ripples. -/
theorem ripple_pass_order_equivalence (sq : ℚ → ℚ) (st : EngineState) :
    ripplesBackward sq st st.ripples (st.vx, st.vy) =
        ripplesForward sq st st.ripples (st.vx, st.vy) ∧
      (ripplePass sq st).ripples = st.ripples.filterMap stepRipple ∧
      (∀ i < st.numParticles,
        (ripplePass sq st).vx i = st.vx i + (rippleTotal sq st st.ripples i).1 ∧
          (ripplePass sq st).vy i = st.vy i + (rippleTotal sq st st.ripples i).2) := by
  refine ⟨?_, ?_, ?_⟩
  · refine Prod.ext ?_ (Prod.ext ?_ ?_)
    · rw [ripplesBackward_fst, ripplesForward_fst]
    · funext i
      rw [show (ripplesBackward sq st st.ripples (st.vx, st.vy)).2.1 i = _ from
          (ripplesBackward_snd sq st st.ripples (st.vx, st.vy) i).1,
        show (ripplesForward sq st st.ripples (st.vx, st.vy)).2.1 i = _ from
          (ripplesForward_snd sq st st.ripples (st.vx, st.vy) i).1]
    · funext i
      rw [show (ripplesBackward sq st st.ripples (st.vx, st.vy)).2.2 i = _ from
          (ripplesBackward_snd sq st st.ripples (st.vx, st.vy) i).2,
        show (ripplesForward sq st st.ripples (st.vx, st.vy)).2.2 i = _ from
          (ripplesForward_snd sq st st.ripples (st.vx, st.vy) i).2]
  · rw [ripplePass_ripples_def, ripplesBackward_fst]
  · intro i hi
    constructor
    · rw [ripplePass_vx_def,
        (ripplesBackward_snd sq st st.ripples (st.vx, st.vy) i).1, if_pos hi]
    · rw [ripplePass_vy_def,
        (ripplesBackward_snd sq st st.ripples (st.vx, st.vy) i).2, if_pos hi]

/-- C6: a ripple created with strength `s0 > 0` has, as long as it survives,
strength `s0 * 0.95^k` and age `k` after `k` ticks, and it has been removed
after `k` ticks exactly when some earlier tick `m` hit the removal test
`s0 * 0.95^m < 0.05` or `m > 300` — i.e. it is dropped at the first such tick,
whichever condition happens first. -/
theorem ripple_lifecycle (px py s0 : ℚ) (hs : 0 < s0) :
    (∀ k r', surviveN ⟨px, py, 0, s0⟩ k = some r' →
      r'.strength = s0 * (19/20)^k ∧ r'.age = k) ∧
    (∀ k, surviveN ⟨px, py, 0, s0⟩ k = none ↔
      ∃ m, 1 ≤ m ∧ m ≤ k ∧ (s0 * (19/20)^m < 1/20 ∨ 300 < m)) := by
  have part1 : ∀ k r', surviveN ⟨px, py, 0, s0⟩ k = some r' →
      r'.strength = s0 * (19/20)^k ∧ r'.age = k := by
    intro k
    induction k with
    | zero =>
      intro r' h
      rw [surviveN] at h
      injection h with h
      subst h
      simp
    | succ k ih =>
      intro r' h
      rw [surviveN] at h
      obtain ⟨r1, h1, h2⟩ := Option.bind_eq_some.mp h
      obtain ⟨hs1, ha1⟩ := ih r1 h1
      rw [stepRipple_eq_some] at h2
      obtain ⟨-, rfl⟩ := h2
      refine ⟨?_, by rw [ha1]⟩
      show r1.strength * (19/20) = _
      rw [hs1, pow_succ]
      ring
  refine ⟨part1, ?_⟩
  intro k
  induction k with
  | zero =>
    rw [surviveN]
    constructor
    · intro h
      exact absurd h (by simp)
    · rintro ⟨m, h1, h2, -⟩
      omega
  | succ k ih =>
    rw [surviveN]
    cases hk : surviveN ⟨px, py, 0, s0⟩ k with
    | none =>
      simp only [Option.none_bind]
      constructor
      · intro _
        obtain ⟨m, h1, h2, h3⟩ := ih.mp hk
        exact ⟨m, h1, by omega, h3⟩
      · intro _
        trivial
    | some r1 =>
      simp only [Option.some_bind]
      obtain ⟨hs1, ha1⟩ := part1 k r1 hk
      rw [stepRipple_eq_none, hs1, ha1]
      constructor
      · intro h
        refine ⟨k + 1, by omega, le_refl _, ?_⟩
        rcases h with h | h
        · left
          calc s0 * (19/20)^(k+1) = s0 * (19/20)^k * (19/20) := by ring
            _ < 1/20 := h
        · right
          omega
      · rintro ⟨m, h1, h2, h3⟩
        have hm : m ≤ k ∨ m = k + 1 := by omega
        rcases hm with hm | hm
        · exact absurd (ih.mpr ⟨m, h1, hm, h3⟩) (by simp [hk])
        · subst hm
          rcases h3 with h3 | h3
          · left
            calc s0 * (19/20)^k * (19/20) = s0 * (19/20)^(k+1) := by ring
              _ < 1/20 := h3
          · right
            omega

/-- A pair iteration contributes nothing when the matrix is all-zero and the
pair is coincident or no closer than `beta * cutOffRadius` (`sq` being an exact
square root on the in-radius squared distance). -/
lemma pairContrib_eq_zero (sq : ℚ → ℚ) (st : EngineState) (i j : ℕ)
    (hrm : 0 < st.config.cutOffRadius)
    (hM : ∀ row ∈ st.config.interactionMatrix, ∀ e ∈ row, e = 0)
    (hd : torDistSq st i j = 0 ∨ (3/10 * st.config.cutOffRadius)^2 ≤ torDistSq st i j)
    (hsq : 0 < torDistSq st i j →
      torDistSq st i j < st.config.cutOffRadius * st.config.cutOffRadius →
      0 ≤ sq (torDistSq st i j) ∧
        sq (torDistSq st i j) * sq (torDistSq st i j) = torDistSq st i j) :
    pairContrib sq st i j = (0, 0) := by
  by_cases hij : i = j
  · simp [pairContrib, hij]
  · rw [pairContrib, if_neg hij]
    by_cases hc : 0 < torDistSq st i j ∧
        torDistSq st i j < st.config.cutOffRadius * st.config.cutOffRadius
    · obtain ⟨hD1, hD2⟩ := hc
      obtain ⟨hs0, hs1⟩ := hsq hD1 hD2
      have hD3 : (3/10 * st.config.cutOffRadius)^2 ≤ torDistSq st i j := by
        rcases hd with h | h
        · rw [h] at hD1
          exact absurd hD1 (lt_irrefl 0)
        · exact h
      have hge : 3/10 * st.config.cutOffRadius ≤ sq (torDistSq st i j) := by
        by_contra hlt
        push_neg at hlt
        have h2 := mul_self_lt_mul_self hs0 hlt
        rw [hs1] at h2
        rw [pow_two] at hD3
        linarith
      have hnd : 3/10 ≤ sq (torDistSq st i j) / st.config.cutOffRadius :=
        (le_div_iff₀ hrm).mpr hge
      simp only [if_pos (And.intro hD1 hD2), matrixGet_zero hM,
        interactionForce_zero_coeff hnd, zero_mul, mul_zero]
    · rw [if_neg hc]

/-- C1 (amended): with an all-zero interaction matrix, zero velocities, no
ripples, in-bounds positions, a positive cutoff radius, and every distinct
pair either coincident or separated by at least `beta * cutOffRadius = 0.3 *
cutOffRadius` (outside the coefficient-independent hard-core band), any number
of `update()` calls leaves the engine state — in particular every position and
velocity — unchanged. -/
theorem zero_matrix_outside_core_stationary (sq : ℚ → ℚ) (st : EngineState)
    (hrm : 0 < st.config.cutOffRadius)
    (hM : ∀ row ∈ st.config.interactionMatrix, ∀ e ∈ row, e = 0)
    (hv : ∀ i < st.numParticles, st.vx i = 0 ∧ st.vy i = 0)
    (hr : st.ripples = [])
    (hpos : ∀ i < st.numParticles,
      0 ≤ st.x i ∧ st.x i < st.width ∧ 0 ≤ st.y i ∧ st.y i < st.height)
    (hdist : ∀ i < st.numParticles, ∀ j < st.numParticles, i ≠ j →
      torDistSq st i j = 0 ∨ (3/10 * st.config.cutOffRadius)^2 ≤ torDistSq st i j)
    (hsq : ∀ i < st.numParticles, ∀ j < st.numParticles,
      0 < torDistSq st i j →
      torDistSq st i j < st.config.cutOffRadius * st.config.cutOffRadius →
      0 ≤ sq (torDistSq st i j) ∧
        sq (torDistSq st i j) * sq (torDistSq st i j) = torDistSq st i j) :
    ∀ n : ℕ, (update sq)^[n] st = st := by
  have hz : ∀ i < st.numParticles, ∀ j < st.numParticles,
      pairContrib sq st i j = (0, 0) := by
    intro i hi j hj
    by_cases hij : i = j
    · simp [pairContrib, hij]
    · exact pairContrib_eq_zero sq st i j hrm hM (hdist i hi j hj hij) (hsq i hi j hj)
  have hacc : ∀ i < st.numParticles, accumForce sq st i = (0, 0) := by
    intro i hi
    rw [accumForce_eq_sum]
    refine Prod.ext ?_ ?_ <;>
    · dsimp only
      apply List.sum_eq_zero
      intro q hq
      obtain ⟨j, hjm, rfl⟩ := List.mem_map.mp hq
      rw [hz i hi j (List.mem_range.mp hjm)]
  have hrp : ripplePass sq st = st := by
    have h1 : ripplePass sq st = { st with ripples := [], vx := st.vx, vy := st.vy } := by
      rw [ripplePass, hr]
      rfl
    rw [h1, ← hr]
  have hip : interactionPass sq st = st := by
    apply EngineState.ext
    · exact interactionPass_x sq st
    · exact interactionPass_y sq st
    · funext i
      rw [interactionPass, ipass_foldl_vx sq _ (List.nodup_range _) st i]
      by_cases hi : i ∈ List.range st.numParticles
      · have hiN := List.mem_range.mp hi
        rw [if_pos hi, hacc i hiN, (hv i hiN).1]
        norm_num
      · rw [if_neg hi]
    · funext i
      rw [interactionPass, ipass_foldl_vy sq _ (List.nodup_range _) st i]
      by_cases hi : i ∈ List.range st.numParticles
      · have hiN := List.mem_range.mp hi
        rw [if_pos hi, hacc i hiN, (hv i hiN).2]
        norm_num
      · rw [if_neg hi]
    · exact interactionPass_group sq st
    · exact interactionPass_numParticles sq st
    · exact interactionPass_ripples sq st
    · exact interactionPass_config sq st
    · exact interactionPass_width sq st
    · exact interactionPass_height sq st
    · rw [interactionPass]
      exact ipass_foldl_groupOffsets sq _ st
  have hpp : positionPass st = st := by
    apply EngineState.ext
    · funext i
      rw [positionPass_x_def]
      dsimp only
      by_cases hi : i < st.numParticles
      · rw [if_pos hi, (hv i hi).1, zero_mul, add_zero]
        obtain ⟨ha, hb, -, -⟩ := hpos i hi
        exact wrapCoord_id ha hb
      · rw [if_neg hi]
    · funext i
      rw [positionPass_y_def]
      dsimp only
      by_cases hi : i < st.numParticles
      · rw [if_pos hi, (hv i hi).2, zero_mul, add_zero]
        obtain ⟨-, -, hc, hd⟩ := hpos i hi
        exact wrapCoord_id hc hd
      · rw [if_neg hi]
    all_goals rfl
  have hfix : update sq st = st := by
    rw [update, hrp, hip, hpp]
  intro n
  induction n with
  | zero => rfl
  | succ n ih => rw [Function.iterate_succ_apply, hfix, ih]

/-- A single-type all-zero-matrix configuration (used by the C1 scenarios). -/
def configC1 : SimulationConfig :=
  { atomCounts := [2], colors := [], interactionMatrix := [[0]],
    friction := 0, timeScale := 1, cutOffRadius := 10, forceFactor := 1, rippleStrength := 0 }

/-- Two resting particles at distance 1, inside the hard-core band
`(0, beta * cutOffRadius) = (0, 3)`. -/
def stateC1cex : EngineState :=
  { x := fun i => if i = 1 then 1 else 0, y := fun _ => 0, vx := fun _ => 0, vy := fun _ => 0,
    group := fun _ => 0, numParticles := 2, ripples := [], config := configC1,
    width := 100, height := 100, groupOffsets := [0, 2] }

/-- C1 (counterexample to the claim as stated): an all-zero interaction matrix
does not make a tick force-free.  With the two resting particles of
`stateC1cex` at distance 1 (`Math.sqrt` is exact here: the only evaluated
squared distance is 1), one `update()` gives particle 0 the velocity
`-2/3 ≠ 0` from the coefficient-independent hard-core repulsion branch of the
force law. -/
theorem zero_matrix_not_stationary_cex :
    (∀ row ∈ stateC1cex.config.interactionMatrix, ∀ e ∈ row, e = 0) ∧
      (∀ i, stateC1cex.vx i = 0 ∧ stateC1cex.vy i = 0) ∧
      stateC1cex.ripples = [] ∧
      ratSqrt 1 = 1 ∧
      (update ratSqrt stateC1cex).vx 0 = -(2/3) := by
  refine ⟨?_, fun i => ⟨rfl, rfl⟩, rfl, ratSqrt_one, ?_⟩
  · intro row hrow e he
    simp only [stateC1cex, configC1] at hrow
    simp only [List.mem_singleton] at hrow
    subst hrow
    simpa using he
  · have hrp : ripplePass ratSqrt stateC1cex = stateC1cex := rfl
    rw [update_vx_def, hrp, interactionPass_vx ratSqrt stateC1cex 0 (by decide),
      accumForce_eq_sum]
    norm_num [stateC1cex, configC1, List.range_succ, pairContrib, torDistSq, wrapDelta,
      matrixGet, interactionForce, ratSqrt_one]

/-- Two resting particles at distance exactly `beta * cutOffRadius = 3`, the
closest separation outside the hard-core band. -/
def stateC1w : EngineState :=
  { x := fun i => if i = 1 then 3 else 0, y := fun _ => 0, vx := fun _ => 0, vy := fun _ => 0,
    group := fun _ => 0, numParticles := 2, ripples := [], config := configC1,
    width := 100, height := 100, groupOffsets := [0, 2] }

/-- Witness for the amended C1 at `stateC1w` (squared pair distance 9, where
`ratSqrt` is an exact square root). -/
theorem zero_matrix_outside_core_stationary_witness :
    (0:ℚ) < stateC1w.config.cutOffRadius ∧
      (∀ i < stateC1w.numParticles, ∀ j < stateC1w.numParticles, i ≠ j →
        torDistSq stateC1w i j = 0 ∨
          (3/10 * stateC1w.config.cutOffRadius)^2 ≤ torDistSq stateC1w i j) ∧
      update ratSqrt stateC1w = stateC1w := by
  have h1 : (0:ℚ) < stateC1w.config.cutOffRadius := by norm_num [stateC1w, configC1]
  have hM : ∀ row ∈ stateC1w.config.interactionMatrix, ∀ e ∈ row, e = 0 := by
    intro row hrow e he
    simp only [stateC1w, configC1, List.mem_singleton] at hrow
    subst hrow
    simpa using he
  have hv : ∀ i < stateC1w.numParticles, stateC1w.vx i = 0 ∧ stateC1w.vy i = 0 :=
    fun i _ => ⟨rfl, rfl⟩
  have hpos : ∀ i < stateC1w.numParticles,
      0 ≤ stateC1w.x i ∧ stateC1w.x i < stateC1w.width ∧
        0 ≤ stateC1w.y i ∧ stateC1w.y i < stateC1w.height := by
    intro i hi
    have hi2 : i < 2 := hi
    interval_cases i <;> norm_num [stateC1w]
  have hdist : ∀ i < stateC1w.numParticles, ∀ j < stateC1w.numParticles, i ≠ j →
      torDistSq stateC1w i j = 0 ∨
        (3/10 * stateC1w.config.cutOffRadius)^2 ≤ torDistSq stateC1w i j := by
    intro i hi j hj hij
    have hi2 : i < 2 := hi
    have hj2 : j < 2 := hj
    interval_cases i <;> interval_cases j <;>
      norm_num [torDistSq, wrapDelta, stateC1w, configC1] at hij ⊢
  have hsq : ∀ i < stateC1w.numParticles, ∀ j < stateC1w.numParticles,
      0 < torDistSq stateC1w i j →
      torDistSq stateC1w i j <
        stateC1w.config.cutOffRadius * stateC1w.config.cutOffRadius →
      0 ≤ ratSqrt (torDistSq stateC1w i j) ∧
        ratSqrt (torDistSq stateC1w i j) * ratSqrt (torDistSq stateC1w i j) =
          torDistSq stateC1w i j := by
    intro i hi j hj
    have hi2 : i < 2 := hi
    have hj2 : j < 2 := hj
    interval_cases i <;> interval_cases j <;>
      norm_num [torDistSq, wrapDelta, stateC1w, configC1, ratSqrt_nine]
  have hfix := zero_matrix_outside_core_stationary ratSqrt stateC1w h1 hM hv rfl
    hpos hdist hsq 1
  exact ⟨h1, hdist, by simpa using hfix⟩

lemma getD_mem {α} (l : List α) (d : α) (i : ℕ) (h : i < l.length) : l.getD i d ∈ l := by
  induction l generalizing i with
  | nil => simp at h
  | cons a rest ih =>
    cases i with
    | zero => simp [List.getD]
    | succ i' =>
      simp only [List.getD_cons_succ]
      exact List.mem_cons_of_mem _ (ih i' (by simpa using h))

/-- C8 (amended: at most 256 types, since `group` is a `Uint8Array`): after
`initParticles`, the particle count is the sum of the counts (also the length
of the rebuilt group store), every type id indexes into `counts`, particles
are laid out bucket by bucket in ascending type order, all velocities are
zero, and every position lies in `[0, width) × [0, height)`.  The all-zero
counts list gives the legal empty state.  (The type-validity, zero-velocity
and position parts need no bound on the number of types.) -/
theorem rebuild_spec (rand : ℕ → ℚ) (st : EngineState)
    (hlen : st.config.atomCounts.length ≤ 256)
    (hrand : ∀ n, 0 ≤ rand n ∧ rand n < 1)
    (hw : 0 < st.width) (hh : 0 < st.height) :
    (initParticles rand st).numParticles = st.config.atomCounts.sum ∧
      (buildGroups 0 st.config.atomCounts).length = st.config.atomCounts.sum ∧
      (∀ i < st.config.atomCounts.sum,
        (initParticles rand st).group i < st.config.atomCounts.length) ∧
      (∀ t < st.config.atomCounts.length, ∀ i,
        (st.config.atomCounts.take t).sum ≤ i →
        i < (st.config.atomCounts.take (t+1)).sum →
        (initParticles rand st).group i = t) ∧
      (∀ i, (initParticles rand st).vx i = 0 ∧ (initParticles rand st).vy i = 0) ∧
      (∀ i < st.config.atomCounts.sum,
        0 ≤ (initParticles rand st).x i ∧ (initParticles rand st).x i < st.width ∧
          0 ≤ (initParticles rand st).y i ∧ (initParticles rand st).y i < st.height) := by
  refine ⟨rfl, buildGroups_length _ _, ?_, ?_, fun i => ⟨rfl, rfl⟩, ?_⟩
  · intro i hi
    show (buildGroups 0 st.config.atomCounts).getD i 0 < _
    have hlen2 : i < (buildGroups 0 st.config.atomCounts).length := by
      rw [buildGroups_length]
      exact hi
    obtain ⟨k, hk, hak⟩ := buildGroups_mem _ 0 (getD_mem _ 0 i hlen2)
    rw [hak]
    exact lt_of_le_of_lt (le_trans (Nat.mod_le _ _) (by omega)) hk
  · intro t ht i h1 h2
    show (buildGroups 0 st.config.atomCounts).getD i 0 = t
    rw [buildGroups_getD _ 0 t i ht h1 h2]
    omega
  · intro i hi
    have hx : (initParticles rand st).x i = rand (2 * i) * st.width := by
      show (if i < st.config.atomCounts.sum then rand (2 * i) * st.width else 0) = _
      rw [if_pos hi]
    have hy : (initParticles rand st).y i = rand (2 * i + 1) * st.height := by
      show (if i < st.config.atomCounts.sum then rand (2 * i + 1) * st.height else 0) = _
      rw [if_pos hi]
    rw [hx, hy]
    refine ⟨mul_nonneg (hrand (2 * i)).1 hw.le, ?_,
      mul_nonneg (hrand (2 * i + 1)).1 hh.le, ?_⟩
    · have := mul_lt_mul_of_pos_right (hrand (2 * i)).2 hw
      rwa [one_mul] at this
    · have := mul_lt_mul_of_pos_right (hrand (2 * i + 1)).2 hh
      rwa [one_mul] at this

/-- A two-type configuration with counts `[1, 2]` for the C8 witness. -/
def configC8w : SimulationConfig :=
  { atomCounts := [1, 2], colors := [], interactionMatrix := [[0, 0], [0, 0]],
    friction := 0, timeScale := 1, cutOffRadius := 10, forceFactor := 1, rippleStrength := 0 }

/-- A three-particle, two-type state for the C8 witness. -/
def stateC8w : EngineState :=
  { x := fun _ => 0, y := fun _ => 0, vx := fun _ => 0, vy := fun _ => 0, group := fun _ => 0,
    numParticles := 0, ripples := [], config := configC8w,
    width := 10, height := 10, groupOffsets := [] }

/-- Witness for the amended C8: rebuilding `stateC8w` with the constant random
stream 1/2 yields 3 particles, particle 1 in bucket 1, and zero velocity. -/
theorem rebuild_spec_witness :
    stateC8w.config.atomCounts.length ≤ 256 ∧ (0:ℚ) < stateC8w.width ∧
      (initParticles (fun _ => 1/2) stateC8w).numParticles = 3 ∧
      (initParticles (fun _ => 1/2) stateC8w).group 1 = 1 ∧
      (initParticles (fun _ => 1/2) stateC8w).vx 0 = 0 := by
  have h := rebuild_spec (fun _ => 1/2) stateC8w (by decide)
    (fun n => by norm_num) (by norm_num [stateC8w]) (by norm_num [stateC8w])
  refine ⟨by decide, by norm_num [stateC8w], ?_, ?_, (h.2.2.2.2.1 0).1⟩
  · rw [h.1]
    decide
  · exact h.2.2.2.1 1 (by decide) 1 (by decide) (by decide)

/-- A 257-type configuration: only types 255 and 256 have one particle each. -/
def configC8cex : SimulationConfig :=
  { atomCounts := List.replicate 255 0 ++ [1, 1], colors := [], interactionMatrix := [],
    friction := 0, timeScale := 1, cutOffRadius := 10, forceFactor := 1, rippleStrength := 0 }

/-- The engine state holding the 257-type configuration. -/
def stateC8cex : EngineState :=
  { x := fun _ => 0, y := fun _ => 0, vx := fun _ => 0, vy := fun _ => 0, group := fun _ => 0,
    numParticles := 0, ripples := [], config := configC8cex,
    width := 10, height := 10, groupOffsets := [] }

set_option maxRecDepth 8000 in
/-- C8 (counterexample to the claim over arbitrary counts): with 257 types the
8-bit `group` store wraps.  Particle 1 occupies type 256's bucket (the
cumulative counts of the first 256 types are 1 and of the first 257 are 2) but
its stored type id is 0, and the store is no longer sorted by type (particle 0
has type 255, particle 1 type 0), so the "all particles of type 0 first, then
type 1, …" layout fails. -/
theorem rebuild_uint8_group_cex :
    (256:ℕ) < stateC8cex.config.atomCounts.length ∧
      (stateC8cex.config.atomCounts.take 256).sum ≤ 1 ∧
      1 < (stateC8cex.config.atomCounts.take 257).sum ∧
      (initParticles (fun _ => 0) stateC8cex).group 1 = 0 ∧
      (initParticles (fun _ => 0) stateC8cex).group 0 = 255 :=
  ⟨by decide, by decide, by decide, by decide, by decide⟩

/-- A one-particle, friction-1 configuration for the C5 witness. -/
def configC5w : SimulationConfig :=
  { atomCounts := [1], colors := [], interactionMatrix := [[1]],
    friction := 1, timeScale := 2, cutOffRadius := 10, forceFactor := 1, rippleStrength := 0 }

def stateC5w : EngineState :=
  { x := fun _ => 0, y := fun _ => 0, vx := fun _ => 7, vy := fun _ => 5,
    group := fun _ => 0, numParticles := 1, ripples := [], config := configC5w,
    width := 100, height := 100, groupOffsets := [0, 1] }

/-- Witness for C5 at `stateC5w` (one particle, `friction = 1`). -/
theorem tick_velocity_formula_witness :
    0 < stateC5w.numParticles ∧
      (update ratSqrt stateC5w).vx 0 =
        (ripplePass ratSqrt stateC5w).vx 0 * max 0 (1 - stateC5w.config.friction) +
          forceAccumX ratSqrt stateC5w 0 * stateC5w.config.timeScale ∧
      (stateC5w.config.friction = 1 →
        (update ratSqrt stateC5w).vx 0 =
          forceAccumX ratSqrt stateC5w 0 * stateC5w.config.timeScale) := by
  have h := tick_velocity_formula ratSqrt stateC5w 0 (by decide)
  exact ⟨by decide, h.1, fun hf => (h.2.2 hf).1⟩

/-- A one-particle state whose next displacement wraps both axes. -/
def configC3w : SimulationConfig :=
  { atomCounts := [1], colors := [], interactionMatrix := [[0]],
    friction := 0, timeScale := 1, cutOffRadius := 10, forceFactor := 1, rippleStrength := 0 }

def stateC3w : EngineState :=
  { x := fun _ => 5, y := fun _ => 5, vx := fun _ => 6, vy := fun _ => -6,
    group := fun _ => 0, numParticles := 1, ripples := [], config := configC3w,
    width := 10, height := 10, groupOffsets := [0, 1] }

/-- Witness for C3 at `stateC3w`: the single particle moves by (+6, -6) out of
`[0,10) × [0,10)` and is wrapped back inside. -/
theorem tick_wrap_invariant_witness :
    (∀ i < stateC3w.numParticles,
      0 ≤ stateC3w.x i ∧ stateC3w.x i < stateC3w.width ∧
        0 ≤ stateC3w.y i ∧ stateC3w.y i < stateC3w.height) ∧
      0 ≤ (update ratSqrt stateC3w).x 0 ∧ (update ratSqrt stateC3w).x 0 < stateC3w.width ∧
      0 ≤ (update ratSqrt stateC3w).y 0 ∧ (update ratSqrt stateC3w).y 0 < stateC3w.height := by
  have hpos : ∀ i < stateC3w.numParticles,
      0 ≤ stateC3w.x i ∧ stateC3w.x i < stateC3w.width ∧
        0 ≤ stateC3w.y i ∧ stateC3w.y i < stateC3w.height := by
    intro i _
    norm_num [stateC3w]
  have hdisp : ∀ i < stateC3w.numParticles,
      |(interactionPass ratSqrt (ripplePass ratSqrt stateC3w)).vx i *
          stateC3w.config.timeScale| < stateC3w.width ∧
      |(interactionPass ratSqrt (ripplePass ratSqrt stateC3w)).vy i *
          stateC3w.config.timeScale| < stateC3w.height := by
    intro i hi
    have hi1 : i < 1 := hi
    interval_cases i
    have hrp : ripplePass ratSqrt stateC3w = stateC3w := rfl
    rw [hrp, interactionPass_vx ratSqrt stateC3w 0 (by decide),
      interactionPass_vy ratSqrt stateC3w 0 (by decide), accumForce_eq_sum]
    norm_num [stateC3w, configC3w, List.range_succ, pairContrib]
  have h := tick_wrap_invariant ratSqrt stateC3w hpos hdisp 0 (by decide)
  exact ⟨hpos, h.1, h.2.1, h.2.2.1, h.2.2.2⟩

/-- The previous configuration for the C7 witness. -/
def configC7a : SimulationConfig :=
  { atomCounts := [2, 1], colors := [], interactionMatrix := [[0, 0], [0, 0]],
    friction := 0, timeScale := 1, cutOffRadius := 10, forceFactor := 1, rippleStrength := 0 }

/-- A reconfiguration changing every parameter except `atomCounts`. -/
def configC7b : SimulationConfig :=
  { atomCounts := [2, 1], colors := [], interactionMatrix := [[1, 0], [0, 1]],
    friction := 1/2, timeScale := 1, cutOffRadius := 50, forceFactor := 2, rippleStrength := 1 }

def stateC7 : EngineState :=
  { x := fun i => (i : ℚ), y := fun _ => 1, vx := fun _ => 2, vy := fun _ => 3,
    group := fun i => if i < 2 then 0 else 1, numParticles := 3, ripples := [],
    config := configC7a, width := 100, height := 100, groupOffsets := [0, 2, 3] }

/-- Witness for C7: swapping in `configC7b` (same counts) keeps the whole
particle store; only the config field changes. -/
theorem setConfig_frame_witness :
    configC7b.atomCounts = stateC7.config.atomCounts ∧
      setConfig (fun _ => 0) stateC7 configC7b = { stateC7 with config := configC7b } :=
  ⟨rfl, (setConfig_frame (fun _ => 0) stateC7 configC7b).1 rfl⟩

/-- A one-particle, one-ripple state for the C9 witness. -/
def configC9w : SimulationConfig :=
  { atomCounts := [1], colors := [], interactionMatrix := [[0]],
    friction := 0, timeScale := 1, cutOffRadius := 10, forceFactor := 1, rippleStrength := 1 }

def stateC9w : EngineState :=
  { x := fun _ => 0, y := fun _ => 0, vx := fun _ => 0, vy := fun _ => 0,
    group := fun _ => 0, numParticles := 1, ripples := [⟨3, 0, 0, 1⟩], config := configC9w,
    width := 100, height := 100, groupOffsets := [0, 1] }

/-- Witness for C9 at `stateC9w`. -/
theorem ripple_pass_order_equivalence_witness :
    ripplesBackward ratSqrt stateC9w stateC9w.ripples (stateC9w.vx, stateC9w.vy) =
        ripplesForward ratSqrt stateC9w stateC9w.ripples (stateC9w.vx, stateC9w.vy) ∧
      0 < stateC9w.numParticles ∧
      (ripplePass ratSqrt stateC9w).vx 0 =
        stateC9w.vx 0 + (rippleTotal ratSqrt stateC9w stateC9w.ripples 0).1 := by
  have h := ripple_pass_order_equivalence ratSqrt stateC9w
  exact ⟨h.1, by decide, (h.2.2 0 (by decide)).1⟩

/-- Witness for C6: a unit-strength ripple still alive after one tick has
strength `0.95 = 1 * 0.95^1` and age 1. -/
theorem ripple_lifecycle_witness :
    (0:ℚ) < 1 ∧ (Ripple.mk 0 0 1 (19/20)).strength = 1 * (19/20)^1 ∧
      (Ripple.mk 0 0 1 (19/20)).age = 1 := by
  have hsv : surviveN ⟨0, 0, 0, 1⟩ 1 = some ⟨0, 0, 1, 19/20⟩ := by
    rw [surviveN, surviveN]
    simp only [Option.some_bind]
    rw [stepRipple]
    rw [if_neg (by norm_num)]
    norm_num
  have h := (ripple_lifecycle 0 0 1 (by norm_num)).1 1 ⟨0, 0, 1, 19/20⟩ hsv
  exact ⟨by norm_num, h.1, h.2⟩

end ParticleLife
